import Mathlib

/-
Verification development for the vector-set module (src/app/vset.c).

The module binds an HNSW proximity graph (external collaborator, hnsw.c)
to an element -> node dictionary, with optional random projection, a
threaded check-and-set insertion protocol (VADD ... CAS), search (VSIM),
removal (VREM), introspection (VDIM/VCARD/VEMB/VLINKS/VINFO) and an RDB
persistence codec.

Shallow embedding conventions:
- vectors are lists over ℤ (the numeric content of float components is
  irrelevant for the structural properties proved here); distances and
  similarity scores are ℚ;
- the HNSW engine is a black box: its state is modelled as the list of
  live nodes plus the fields of the HNSW struct the module reads
  (vector_dim, quant_type, node_count = nodes.length, max_level,
  last_id = nextId); engine primitives that can fail (hnsw_insert,
  hnsw_try_commit_insert) take an explicit success oracle;
- RedisModuleDict is an association list; a stored NULL node pointer is
  `none`, and RedisModule_DictGet returns NULL both for a missing key and
  for a stored NULL, which dictGet mirrors;
- a C NULL-pointer dereference (undefined behavior) is modelled as a
  distinguished `crash` result.
-/

namespace VectorSets

/-- Element identifiers (RedisModuleString contents used as dict keys). -/
abbrev Ident := String

/-- Quantization modes of the HNSW engine (HNSW_QUANT_NONE / _Q8 / _BIN). -/
inductive QuantType where
  | qnone
  | q8
  | qbin
deriving DecidableEq, Repr

/-- vectorSetGetQuantName from vset.c: the reply name of a quantization mode. -/
def vectorSetGetQuantName : QuantType → String
  | .qnone => "f32"
  | .q8 => "int8"
  | .qbin => "bin"

/-- A live HNSW node as seen by vset.c: its engine identity, the attached
value object (node->value, a retained RedisModuleString, modelled by an
opaque object tag so that object reuse on update is visible), and the
stored vector. -/
structure HnswNode where
  nid : ℕ
  payload : ℕ
  vec : List ℤ
deriving DecidableEq, Repr

/-- The HNSW engine state visible to vset.c. -/
structure HNSW where
  nodes : List HnswNode
  nextId : ℕ
  vectorDim : ℕ
  quantType : QuantType
  maxLevel : ℕ
deriving DecidableEq, Repr

/-- Engine primitive hnsw_insert: on success returns the fresh node built
from the given payload and vector; `ok` is the success oracle (allocation
failure returns NULL in C). Failure leaves the graph untouched. -/
def hnsw_insert (h : HNSW) (ok : Bool) (payload : ℕ) (vec : List ℤ) :
    Option HnswNode × HNSW :=
  if ok then
    let n : HnswNode := ⟨h.nextId, payload, vec⟩
    (some n, { h with nodes := h.nodes ++ [n], nextId := h.nextId + 1 })
  else (none, h)

/-- Engine primitive hnsw_delete_node: unlinks the node with the given id. -/
def hnsw_delete_node (h : HNSW) (nid : ℕ) : HNSW :=
  { h with nodes := h.nodes.filter (fun n => decide (n.nid ≠ nid)) }

/-- The element -> node dictionary (RedisModuleDict). Entries store the
node pointer; `none` models a stored NULL pointer. -/
abbrev Dict := List (Ident × Option HnswNode)

/-- Raw dictionary lookup: the stored value of the first entry with the
given key, if the key is present. -/
def dictLookup (d : Dict) (k : Ident) : Option (Option HnswNode) :=
  match d with
  | [] => none
  | (k2, v) :: t => if k2 = k then some v else dictLookup t k

/-- RedisModule_DictGet: returns the stored pointer; NULL both when the key
is missing and when the stored pointer is NULL. -/
def dictGet (d : Dict) (k : Ident) : Option HnswNode :=
  match dictLookup d k with
  | none => none
  | some v => v

/-- RedisModule_DictSet: adds the entry only when the key is absent
(DictSet fails, leaving the dict unchanged, when the key exists). -/
def dictSet (d : Dict) (k : Ident) (v : Option HnswNode) : Dict :=
  match d with
  | [] => [(k, v)]
  | (k2, v2) :: t => if k2 = k then (k2, v2) :: t else (k2, v2) :: dictSet t k v

/-- RedisModule_DictReplace: sets the entry, overwriting an existing key. -/
def dictReplace (d : Dict) (k : Ident) (v : Option HnswNode) : Dict :=
  match d with
  | [] => [(k, v)]
  | (k2, v2) :: t => if k2 = k then (k, v) :: t else (k2, v2) :: dictReplace t k v

/-- RedisModule_DictDel: removes the entry with the given key. -/
def dictDel (d : Dict) (k : Ident) : Dict :=
  d.filter (fun kv => decide (kv.1 ≠ k))

/-- struct vsetObject: the dual HNSW + dictionary representation, the
optional projection matrix, and the identity tag used by threaded VADD. -/
structure vsetObject where
  hnsw : HNSW
  dict : Dict
  proj_matrix : Option (List ℤ)
  proj_input_size : ℕ
  id : ℕ
deriving DecidableEq, Repr

/-- createVectorSetObject: fresh empty set (id models VectorSetTypeNextId++). -/
def createVectorSetObject (dim : ℕ) (quant : QuantType) (newId : ℕ) : vsetObject :=
  { hnsw := { nodes := [], nextId := 0, vectorDim := dim, quantType := quant, maxLevel := 0 },
    dict := [], proj_matrix := none, proj_input_size := 0, id := newId }

/-- vectorSetInsert from vset.c: returns the updated object and the reply
(1 = added, 0 = already present / failed). If the element exists and
`update` is set, the node is deleted (keeping its value object), a new
node is inserted carrying the old value object, and the dict entry is
replaced; the update path does not check the engine insert for NULL. The
fresh path checks for NULL before touching the dict. `insertOk` is the
engine-success oracle of the hnsw_insert call that runs. -/
def vectorSetInsert (o : vsetObject) (vec : List ℤ) (payload : ℕ) (val : Ident)
    (update : Bool) (insertOk : Bool) : vsetObject × ℤ :=
  match dictGet o.dict val with
  | some node =>
    if update then
      let old_payload := node.payload
      let h1 := hnsw_delete_node o.hnsw node.nid
      let (newnode, h2) := hnsw_insert h1 insertOk old_payload vec
      ({ o with hnsw := h2, dict := dictReplace o.dict val newnode }, 0)
    else (o, 0)
  | none =>
    let (newnode, h2) := hnsw_insert o.hnsw insertOk payload vec
    match newnode with
    | none => (o, 0)
    | some n => ({ o with hnsw := h2, dict := dictSet o.dict val (some n) }, 1)

/-- The commit block of VADD_CASReply (vset.c lines 303-307): try to commit
the prepared context (`commitOk` oracle); on failure insert synchronously
from scratch (`insertOk` oracle); then DictSet the result — unconditionally,
even when both steps returned NULL. -/
def VADD_CASReply_commit (o : vsetObject) (val : Ident) (payload : ℕ)
    (vec : List ℤ) (commitOk insertOk : Bool) : vsetObject :=
  let (newnode, h1) :=
    if commitOk then hnsw_insert o.hnsw true payload vec
    else hnsw_insert o.hnsw insertOk payload vec
  { o with hnsw := h1, dict := dictSet o.dict val newnode }

/-- VREM's mutation on the vector set (vset.c lines 831-843): dict entry
removed first, then the graph node. Reply 1 when found, 0 otherwise. -/
def vremVset (o : vsetObject) (element : Ident) : vsetObject × ℤ :=
  match dictGet o.dict element with
  | none => (o, 0)
  | some node =>
    ({ o with dict := dictDel o.dict element,
              hnsw := hnsw_delete_node o.hnsw node.nid }, 1)

/-- VEMB's vector fetch (non-RAW path): dict lookup, then the node's
stored vector (hnsw_get_node_vector). -/
def vembVec (o : vsetObject) (val : Ident) : Option (List ℤ) :=
  (dictGet o.dict val).map HnswNode.vec

/- ===================== key states and reply dispatch ===================== -/

/-- The state of the Redis key a command opens. -/
inductive KeyState where
  | empty
  | otherType
  | holds (o : vsetObject)
deriving DecidableEq, Repr

/-- REDISMODULE_ERRORMSG_WRONGTYPE. -/
def wrongTypeErr : String :=
  "WRONGTYPE Operation against a key holding the wrong kind of value"

/-- Outcome of the VADD_CASReply callback: `crash` models a NULL-pointer
dereference (undefined behavior); `done r k repl` models replying the
integer r with the key left in state k, `repl` = whether the command was
replicated (i.e. a real mutation was committed). -/
inductive CasReplyResult where
  | crash
  | done (reply : ℤ) (k : KeyState) (replicated : Bool)
deriving DecidableEq, Repr

/-- VADD_CASReply from vset.c (lines 260-318), as run on the controlling
thread after the background phase. `capturedId` is the identity tag stored
in the thread argument block before the background phase. The C code sets
`vset = NULL` when the tag mismatches and then immediately evaluates
`RedisModule_DictGet(vset->dict, val, NULL)` — a NULL dereference, hence
`crash` in that case. -/
def VADD_CASReply (k : KeyState) (capturedId : ℕ) (val : Ident) (payload : ℕ)
    (vec : List ℤ) (commitOk insertOk : Bool) : CasReplyResult :=
  match k with
  | .empty => .done 1 k false
  | .otherType => .done 1 k false
  | .holds o =>
    if o.id ≠ capturedId then
      .crash
    else if (dictGet o.dict val).isSome then
      .done 1 k false
    else
      .done 1 (.holds (VADD_CASReply_commit o val payload vec commitOk insertOk)) true

/- ===================== VADD threaded/synchronous decision ===================== -/

/-- Whether VADD takes the threaded (CAS) path (vset.c lines 330-499):
the CAS option is dropped for replicated / Lua / MULTI contexts, dropped
when the key is being created, and dropped when the element is already in
the dictionary. -/
def vaddCasDecision (casOption replicated lua multi keyEmpty identAlreadyPresent : Bool) : Bool :=
  let cas := casOption
  let cas := if replicated || lua || multi then false else cas
  let cas := if keyEmpty then false else cas
  let cas := if cas && identAlreadyPresent then false else cas
  cas

/-- The two execution paths of VADD. -/
inductive VaddPath where
  | sync
  | threaded
deriving DecidableEq, Repr

/-- Which path VADD takes, as a function of the decision bit. -/
def vaddPath (casOption replicated lua multi keyEmpty identAlreadyPresent : Bool) : VaddPath :=
  if vaddCasDecision casOption replicated lua multi keyEmpty identAlreadyPresent then
    .threaded
  else .sync

/- ===================== VSIM result formatting ===================== -/

/-- The similarity score derived from a distance (vset.c lines 543, 979). -/
def similarityScore (d : ℚ) : ℚ := 1 - d / 2

/-- The reply loop of VSIM_execute (vset.c lines 537-545): walk the engine
results in order, stop after `count` entries or at the first distance
exceeding epsilon. Keeps (identifier, distance) pairs. -/
def vsimEmit : List (Ident × ℚ) → ℕ → ℚ → List (Ident × ℚ)
  | [], _, _ => []
  | _, 0, _ => []
  | (v, d) :: rest, n + 1, eps =>
    if eps < d then [] else (v, d) :: vsimEmit rest n eps

/-- The VSIM reply: each emitted element, with the similarity score
attached when WITHSCORES was given. -/
def vsimReply (found : List (Ident × ℚ)) (count : ℕ) (eps : ℚ)
    (withscores : Bool) : List (Ident × Option ℚ) :=
  (vsimEmit found count eps).map
    (fun p => (p.1, if withscores then some (similarityScore p.2) else none))

/-- The effective exploration factor of VSIM_execute (lines 519-520). -/
def vsimEffectiveEf (ef count : ℕ) : ℕ :=
  let ef2 := if ef = 0 then 100 else ef
  if count > ef2 then count else ef2

/-- VLINKS WITHSCORES formatting (lines 973-981): each neighbor paired with
the similarity score of its distance from the element. -/
def vlinksWithScores (neighborDistances : List (Ident × ℚ)) : List (Ident × ℚ) :=
  neighborDistances.map (fun p => (p.1, similarityScore p.2))

/- ===================== command replies ===================== -/

/-- Replies the commands can produce. -/
inductive Reply where
  | err (msg : String)
  | nil
  | nilArray
  | emptyArray
  | int (n : ℤ)
  | values (v : List ℤ)
  | pairs (l : List (Ident × Option ℚ))
  | layerLists (l : List (List (Ident × Option ℚ)))
  | infoMap (quantName : String) (dim : ℕ) (size : ℕ) (maxLevel : ℕ) (uid : ℕ) (maxNodeUid : ℕ)
deriving DecidableEq, Repr

/-- Whether a reply is a hard error. -/
def Reply.isHardError : Reply → Bool
  | .err _ => true
  | _ => false

/-- VDIM (vset.c lines 765-781). -/
def VDIM (k : KeyState) : Reply :=
  match k with
  | .empty => .err "ERR key does not exist"
  | .otherType => .err wrongTypeErr
  | .holds o => .int o.hnsw.vectorDim

/-- VCARD (lines 784-800). -/
def VCARD (k : KeyState) : Reply :=
  match k with
  | .empty => .int 0
  | .otherType => .err wrongTypeErr
  | .holds o => .int o.hnsw.nodes.length

/-- VREM (lines 805-853): reply and resulting key state (the key is deleted
when the dictionary becomes empty). -/
def VREM (k : KeyState) (element : Ident) : Reply × KeyState :=
  match k with
  | .empty => (.int 0, k)
  | .otherType => (.err wrongTypeErr, k)
  | .holds o =>
    match dictGet o.dict element with
    | none => (.int 0, k)
    | some node =>
      let o2 : vsetObject :=
        { o with dict := dictDel o.dict element,
                 hnsw := hnsw_delete_node o.hnsw node.nid }
      if o2.dict.length = 0 then (.int 1, .empty) else (.int 1, .holds o2)

/-- VEMB, non-RAW path (lines 861-918). -/
def VEMB (k : KeyState) (element : Ident) : Reply :=
  match k with
  | .empty => .nil
  | .otherType => .err wrongTypeErr
  | .holds o =>
    match dictGet o.dict element with
    | none => .nil
    | some node => .values node.vec

/-- VLINKS (lines 927-985). The per-layer neighbor lists with their engine
distances are supplied by the engine (node->layers), modelled as a
function of the node. -/
def VLINKS (k : KeyState) (element : Ident)
    (layers : HnswNode → List (List (Ident × ℚ))) (withscores : Bool) : Reply :=
  match k with
  | .empty => .nil
  | .otherType => .err wrongTypeErr
  | .holds o =>
    match dictGet o.dict element with
    | none => .nil
    | some node =>
      .layerLists ((layers node).map (fun l =>
        if withscores then (vlinksWithScores l).map (fun p => (p.1, some p.2))
        else l.map (fun p => (p.1, (none : Option ℚ)))))

/-- VINFO (lines 990-1034). -/
def VINFO (k : KeyState) : Reply :=
  match k with
  | .empty => .nilArray
  | .otherType => .err wrongTypeErr
  | .holds o =>
    .infoMap (vectorSetGetQuantName o.hnsw.quantType) o.hnsw.vectorDim
      o.hnsw.nodes.length o.hnsw.maxLevel o.id o.hnsw.nextId

/-- VSIM (lines 586-762): the key-state dispatch happens before the vector
is parsed; on a held key the reply is the formatted engine search result
(`found`, the engine output of hnsw_search, is a parameter). -/
def VSIM (k : KeyState) (found : List (Ident × ℚ)) (count : ℕ) (eps : ℚ)
    (withscores : Bool) : Reply :=
  match k with
  | .empty => .emptyArray
  | .otherType => .err wrongTypeErr
  | .holds _ => .pairs (vsimReply found count eps withscores)

/- ===================== projection pipeline ===================== -/

/-- One term-by-term pass of applyProjection's inner loop: the partial dot
product sum_idx row[j+idx] * input[j+idx] for idx < fuel, where the row
starts at matrix offset rowBase. Out-of-bounds access of the matrix or of
the input vector is undefined behavior in C, modelled as `none`. -/
def rowDot (input matrix : List ℤ) (rowBase : ℕ) : ℕ → ℕ → Option ℤ
  | _, 0 => some 0
  | j, fuel + 1 => do
    let m ← matrix.get? (rowBase + j)
    let x ← input.get? j
    let rest ← rowDot input matrix rowBase (j + 1) fuel
    pure (m * x + rest)

/-- The outer loop of applyProjection: rows i, i+1, ..., i+fuel-1, each an
inner product of the input with the matrix row starting at offset
i * input_dim. -/
def applyProjectionRows (input matrix : List ℤ) (input_dim : ℕ) : ℕ → ℕ → Option (List ℤ)
  | _, 0 => some []
  | i, fuel + 1 => do
    let x ← rowDot input matrix (i * input_dim) 0 input_dim
    let rest ← applyProjectionRows input matrix input_dim (i + 1) fuel
    pure (x :: rest)

/-- applyProjection from vset.c (lines 72-87): output_dim components,
component i = inner product of the input with the i-th row (of length
input_dim) of the row-major matrix. -/
def applyProjection (input matrix : List ℤ) (input_dim output_dim : ℕ) : Option (List ℤ) :=
  applyProjectionRows input matrix input_dim 0 output_dim

/-- The projection call VADD makes when creating the key (line 409):
applyProjection(vec, proj_matrix, dim, reduce_dim). -/
def vaddCreateProjection (proj_matrix : List ℤ) (vec : List ℤ) (dim reduce_dim : ℕ) :
    Option (List ℤ) :=
  applyProjection vec proj_matrix dim reduce_dim

/-- The projection call VADD makes on an existing set (line 449):
applyProjection(vec, vset->proj_matrix, vset->proj_input_size, dim), where
dim is the dimension of the just-parsed input vector. -/
def vaddExistingProjection (proj_matrix : List ℤ) (proj_input_size : ℕ)
    (vec : List ℤ) (dim : ℕ) : Option (List ℤ) :=
  applyProjection vec proj_matrix proj_input_size dim

/-- The projection call VSIM makes (line 644), with the same arguments as
the existing-set VADD call. -/
def vsimProjection (proj_matrix : List ℤ) (proj_input_size : ℕ)
    (vec : List ℤ) (dim : ℕ) : Option (List ℤ) :=
  applyProjection vec proj_matrix proj_input_size dim

/-- VSIM's vector preparation (lines 641-649): the query is projected only
when the set has a projection matrix and the query's dimension differs
from the reduced dimension; afterwards dim is set to the reduced
dimension. Returns the vector handed to the search and the final dim. -/
def vsimPrepareVector (proj_matrix : Option (List ℤ)) (proj_input_size : ℕ)
    (vector_dim : ℕ) (vec : List ℤ) (dim : ℕ) : Option (List ℤ) × ℕ :=
  match proj_matrix with
  | some m =>
    if dim ≠ vector_dim then (vsimProjection m proj_input_size vec dim, vector_dim)
    else (some vec, dim)
  | none => (some vec, dim)

/- ===================== RDB persistence codec ===================== -/

/-- Items of the RDB stream, as written through the RedisModule save API. -/
inductive RdbItem where
  | unsigned (n : ℕ)
  | buf (bytes : List ℕ)
  | str (s : Ident)
deriving DecidableEq, Repr

/-- A node as serialized by the engine (hnsw_serialize_node): the attached
value, the raw quantized vector bytes, and the opaque per-node parameter
list (layer/link metadata). -/
structure SerNode where
  value : Ident
  vecBytes : List ℕ
  params : List ℕ
deriving DecidableEq, Repr

/-- The serialized content of a vector set: vector dimension, quantization
mode (the raw unsigned value saved to the stream), optional projection
(input dimension and raw matrix bytes; the output dimension is the vector
dimension), and the node list in graph order. node_count equals the
length of the node list (engine invariant). -/
structure VsetSerialized where
  vectorDim : ℕ
  quantType : ℕ
  projection : Option (ℕ × List ℕ)
  nodes : List SerNode
deriving DecidableEq, Repr

/-- The per-node save block of VectorSetRdbSave (lines 1061-1071). -/
def nodeSave (n : SerNode) : List RdbItem :=
  [.str n.value, .buf n.vecBytes, .unsigned n.params.length] ++ n.params.map .unsigned

/-- VectorSetRdbSave (lines 1039-1072): dimension, element count,
quantization, projection flag (with input dimension and the raw matrix
blob of 4 * input_dim * output_dim bytes when present), then every node. -/
def VectorSetRdbSave (v : VsetSerialized) : List RdbItem :=
  [.unsigned v.vectorDim, .unsigned v.nodes.length, .unsigned v.quantType] ++
  (match v.projection with
   | some (inputDim, mbytes) => [.unsigned 1, .unsigned inputDim, .buf mbytes]
   | none => [.unsigned 0]) ++
  v.nodes.flatMap nodeSave

/-- The parameter-loading loop of VectorSetRdbLoad (lines 1118-1121). -/
def loadParams : ℕ → List RdbItem → Option (List ℕ × List RdbItem)
  | 0, rest => some ([], rest)
  | n + 1, .unsigned p :: rest =>
    match loadParams n rest with
    | some (ps, r) => some (p :: ps, r)
    | none => none
  | _ + 1, _ => none

/-- The node-loading loop of VectorSetRdbLoad (lines 1105-1132): per node
the value string, the vector blob — whose length must equal the expected
quantized size `qbytes` (hnsw_quants_bytes), else the load fails — the
parameter count and the parameters. -/
def loadNodes (qbytes : ℕ) : ℕ → List RdbItem → Option (List SerNode × List RdbItem)
  | 0, rest => some ([], rest)
  | n + 1, .str v :: .buf vb :: .unsigned pc :: rest =>
    if vb.length = qbytes then
      match loadParams pc rest with
      | some (ps, r2) =>
        match loadNodes qbytes n r2 with
        | some (ns, r3) => some (⟨v, vb, ps⟩ :: ns, r3)
        | none => none
      | none => none
    else none
  | _ + 1, _ => none

/-- VectorSetRdbLoad (lines 1075-1135): encoding version 0 only; header,
optional projection (the load memcpy's 4 * input_dim * dim bytes out of
the loaded blob — reading past a shorter blob would be undefined
behavior, modelled as a failed load), then the node loop. -/
def VectorSetRdbLoad (qbytes : ℕ) (encver : ℕ) (stream : List RdbItem) :
    Option VsetSerialized :=
  if encver ≠ 0 then none
  else match stream with
  | .unsigned dim :: .unsigned elements :: .unsigned quant :: .unsigned hasProj :: rest =>
    if hasProj = 0 then
      match loadNodes qbytes elements rest with
      | some (ns, _) => some ⟨dim, quant, none, ns⟩
      | none => none
    else
      match rest with
      | .unsigned inputDim :: .buf mb :: rest2 =>
        if 4 * inputDim * dim ≤ mb.length then
          match loadNodes qbytes elements rest2 with
          | some (ns, _) => some ⟨dim, quant, some (inputDim, mb.take (4 * inputDim * dim)), ns⟩
          | none => none
        else none
      | _ => none
  | _ => none

/- ===================== operation sequences (for the lock-step invariant) ===================== -/

/-- The graph-mutating operations a vector set undergoes, with explicit
engine-success oracles. `vaddSync` is the synchronous VADD insert path
(vectorSetInsert with update = 1, vset.c line 467, covering both fresh
inserts and update-style inserts); `vaddCas` is the commit half of a
threaded VADD whose identity check passed (VADD_CASReply lines 291-307);
`vrem` is VREM's mutation. -/
inductive VsetOp where
  | vaddSync (val : Ident) (payload : ℕ) (vec : List ℤ) (insertOk : Bool)
  | vaddCas (val : Ident) (payload : ℕ) (vec : List ℤ) (commitOk insertOk : Bool)
  | vrem (val : Ident)
deriving DecidableEq, Repr

/-- Apply one operation to a vector set object. -/
def vsetApplyOp (o : vsetObject) : VsetOp → vsetObject
  | .vaddSync val p vec ok => (vectorSetInsert o vec p val true ok).1
  | .vaddCas val p vec c i =>
    if (dictGet o.dict val).isSome then o
    else VADD_CASReply_commit o val p vec c i
  | .vrem val => (vremVset o val).1

/-- Whether every engine insert the operation actually performs succeeds. -/
def VsetOp.allOk : VsetOp → Bool
  | .vaddSync _ _ _ ok => ok
  | .vaddCas _ _ _ c i => c || i
  | .vrem _ => true

/-- The lock-step invariant: the dictionary keys are unique and the stored
node pointers are, as a multiset, exactly the live graph nodes (in
particular no entry stores NULL and no two entries share a node). -/
def lockStep (o : vsetObject) : Prop :=
  (o.dict.map Prod.fst).Nodup ∧
  List.Perm (o.dict.map Prod.snd) (o.hnsw.nodes.map some)

/-- Engine id hygiene: node ids are unique and below the next-id counter. -/
def goodIds (h : HNSW) : Prop :=
  (h.nodes.map HnswNode.nid).Nodup ∧ ∀ n ∈ h.nodes, n.nid < h.nextId

instance (o : vsetObject) : Decidable (lockStep o) :=
  inferInstanceAs (Decidable ((o.dict.map Prod.fst).Nodup ∧
    List.Perm (o.dict.map Prod.snd) (o.hnsw.nodes.map some)))

instance (h : HNSW) : Decidable (goodIds h) :=
  inferInstanceAs (Decidable ((h.nodes.map HnswNode.nid).Nodup ∧
    ∀ n ∈ h.nodes, n.nid < h.nextId))


/- ===================== concrete sample objects ===================== -/

/-- A sample node, used for concrete evaluations. -/
def sampleNode : HnswNode := ⟨0, 5, [1, 2]⟩

/-- A one-element sample vector set with identity tag 3. -/
def sampleVset : vsetObject :=
  { hnsw := { nodes := [sampleNode], nextId := 1, vectorDim := 2,
              quantType := .q8, maxLevel := 0 },
    dict := [("a", some sampleNode)], proj_matrix := none,
    proj_input_size := 0, id := 3 }

/- ===================== dictionary lemmas ===================== -/

theorem dictLookup_mem {d : Dict} {k : Ident} {v : Option HnswNode} :
    dictLookup d k = some v → (k, v) ∈ d := by
  induction d with
  | nil => intro h; simp [dictLookup] at h
  | cons a t ih =>
    obtain ⟨k2, v2⟩ := a
    intro h
    simp only [dictLookup] at h
    by_cases hk : k2 = k
    · rw [if_pos hk] at h
      cases h
      subst hk
      exact List.mem_cons_self _ _
    · rw [if_neg hk] at h
      exact List.mem_cons_of_mem _ (ih h)

theorem dictLookup_none_not_mem {d : Dict} {k : Ident} :
    dictLookup d k = none → k ∉ d.map Prod.fst := by
  induction d with
  | nil => intro _ h; simp at h
  | cons a t ih =>
    obtain ⟨k2, v2⟩ := a
    intro h hmem
    simp only [dictLookup] at h
    by_cases hk : k2 = k
    · rw [if_pos hk] at h; cases h
    · rw [if_neg hk] at h
      simp only [List.map_cons, List.mem_cons] at hmem
      rcases hmem with hmem | hmem
      · exact hk hmem.symm
      · exact ih h hmem

theorem dictDel_of_not_mem {d : Dict} {k : Ident} (h : k ∉ d.map Prod.fst) :
    dictDel d k = d := by
  rw [dictDel, List.filter_eq_self]
  intro kv hkv
  simp only [decide_eq_true_eq]
  intro hq
  exact h (hq ▸ List.mem_map_of_mem Prod.fst hkv)

theorem dictDel_cons_self {k : Ident} {v : Option HnswNode} {t : Dict} :
    dictDel ((k, v) :: t) k = dictDel t k := by
  simp [dictDel, List.filter_cons]

theorem dictDel_cons_ne {k k2 : Ident} {v : Option HnswNode} {t : Dict}
    (hk : k2 ≠ k) : dictDel ((k2, v) :: t) k = (k2, v) :: dictDel t k := by
  simp [dictDel, List.filter_cons, hk]

theorem map_snd_perm_of_lookup {d : Dict} {k : Ident} {v : Option HnswNode}
    (hnd : (d.map Prod.fst).Nodup) (h : dictLookup d k = some v) :
    List.Perm (d.map Prod.snd) (v :: (dictDel d k).map Prod.snd) := by
  induction d with
  | nil => simp [dictLookup] at h
  | cons a t ih =>
    obtain ⟨k2, v2⟩ := a
    simp only [List.map_cons, List.nodup_cons] at hnd
    simp only [dictLookup] at h
    by_cases hk : k2 = k
    · rw [if_pos hk] at h
      cases h
      subst hk
      rw [dictDel_cons_self, dictDel_of_not_mem hnd.1]
      exact List.Perm.refl _
    · rw [if_neg hk] at h
      rw [dictDel_cons_ne hk]
      simp only [List.map_cons]
      exact (List.Perm.cons v2 (ih hnd.2 h)).trans (List.Perm.swap v v2 _)

theorem dictReplace_map_fst {d : Dict} {k : Ident} {v : Option HnswNode}
    (h : (dictLookup d k).isSome) :
    (dictReplace d k v).map Prod.fst = d.map Prod.fst := by
  induction d with
  | nil => simp [dictLookup] at h
  | cons a t ih =>
    obtain ⟨k2, v2⟩ := a
    simp only [dictLookup] at h
    by_cases hk : k2 = k
    · subst hk
      simp [dictReplace]
    · rw [if_neg hk] at h
      simp only [dictReplace, if_neg hk, List.map_cons]
      rw [ih h]

theorem dictReplace_map_snd_perm {d : Dict} {k : Ident} {v : Option HnswNode}
    (hnd : (d.map Prod.fst).Nodup) (h : (dictLookup d k).isSome) :
    List.Perm ((dictReplace d k v).map Prod.snd) (v :: (dictDel d k).map Prod.snd) := by
  induction d with
  | nil => simp [dictLookup] at h
  | cons a t ih =>
    obtain ⟨k2, v2⟩ := a
    simp only [List.map_cons, List.nodup_cons] at hnd
    simp only [dictLookup] at h
    by_cases hk : k2 = k
    · subst hk
      rw [dictDel_cons_self, dictDel_of_not_mem hnd.1]
      simp only [dictReplace, if_pos rfl, List.map_cons]
      exact List.Perm.refl _
    · rw [if_neg hk] at h
      rw [dictDel_cons_ne hk]
      simp only [dictReplace, if_neg hk, List.map_cons]
      exact (List.Perm.cons v2 (ih hnd.2 h)).trans (List.Perm.swap v v2 _)

theorem dictLookup_dictReplace {d : Dict} {k : Ident} {v : Option HnswNode} :
    dictLookup (dictReplace d k v) k = some v := by
  induction d with
  | nil => simp [dictReplace, dictLookup]
  | cons a t ih =>
    obtain ⟨k2, v2⟩ := a
    by_cases hk : k2 = k
    · subst hk
      simp [dictReplace, dictLookup]
    · simp only [dictReplace, if_neg hk, dictLookup, if_neg hk]
      exact ih

theorem dictSet_of_lookup_none {d : Dict} {k : Ident} {v : Option HnswNode}
    (h : dictLookup d k = none) : dictSet d k v = d ++ [(k, v)] := by
  induction d with
  | nil => simp [dictSet]
  | cons a t ih =>
    obtain ⟨k2, v2⟩ := a
    simp only [dictLookup] at h
    by_cases hk : k2 = k
    · rw [if_pos hk] at h; cases h
    · rw [if_neg hk] at h
      simp only [dictSet, if_neg hk, List.cons_append]
      rw [ih h]

/- ===================== graph lemmas ===================== -/

theorem nodes_perm_delete {l : List HnswNode} {n : HnswNode}
    (hnd : (l.map HnswNode.nid).Nodup) (hm : n ∈ l) :
    List.Perm (l.map some)
      (some n :: (l.filter (fun m => decide (m.nid ≠ n.nid))).map some) := by
  induction l with
  | nil => simp at hm
  | cons a t ih =>
    simp only [List.map_cons, List.nodup_cons] at hnd
    by_cases hid : a.nid = n.nid
    · have han : a = n := by
        rcases List.mem_cons.mp hm with h | h
        · exact h.symm
        · exact absurd (hid ▸ List.mem_map_of_mem HnswNode.nid h) hnd.1
      subst han
      have hfil : (a :: t).filter (fun m => decide (m.nid ≠ a.nid)) =
          t.filter (fun m => decide (m.nid ≠ a.nid)) := by
        simp [List.filter_cons]
      rw [hfil]
      have hall : t.filter (fun m => decide (m.nid ≠ a.nid)) = t := by
        rw [List.filter_eq_self]
        intro m hmt
        simp only [decide_eq_true_eq]
        intro hq
        exact hnd.1 (hq ▸ List.mem_map_of_mem HnswNode.nid hmt)
      rw [hall]
      exact List.Perm.refl _
    · have hnt : n ∈ t := by
        rcases List.mem_cons.mp hm with h | h
        · exact absurd (h ▸ rfl) hid
        · exact h
      have hfil : (a :: t).filter (fun m => decide (m.nid ≠ n.nid)) =
          a :: t.filter (fun m => decide (m.nid ≠ n.nid)) := by
        simp [List.filter_cons, hid]
      rw [hfil]
      simp only [List.map_cons]
      exact (List.Perm.cons (some a) (ih hnd.2 hnt)).trans
        (List.Perm.swap (some n) (some a) _)

theorem goodIds_delete {h : HNSW} {nid : ℕ} (hg : goodIds h) :
    goodIds (hnsw_delete_node h nid) := by
  obtain ⟨h1, h2⟩ := hg
  constructor
  · exact (((List.filter_sublist _).map _).nodup h1)
  · intro n hn
    exact h2 n ((List.filter_sublist _).mem hn)

theorem goodIds_insert {h : HNSW} {p : ℕ} {vec : List ℤ} (hg : goodIds h) :
    goodIds (hnsw_insert h true p vec).2 := by
  obtain ⟨h1, h2⟩ := hg
  simp only [hnsw_insert, if_true]
  constructor
  · simp only [List.map_append, List.map_cons, List.map_nil]
    rw [List.nodup_append]
    refine ⟨h1, List.nodup_singleton _, ?_⟩
    intro a ha hb
    simp only [List.mem_singleton] at hb
    subst hb
    obtain ⟨n, hn, hna⟩ := List.mem_map.mp ha
    exact absurd (hna ▸ h2 n hn) (lt_irrefl _)
  · intro n hn
    rcases List.mem_append.mp hn with hn | hn
    · exact Nat.lt_succ_of_lt (h2 n hn)
    · simp only [List.mem_singleton] at hn
      subst hn
      exact Nat.lt_succ_self _

/- ===================== lock-step helper lemmas ===================== -/

theorem dictGet_some_lookup {d : Dict} {k : Ident} {n : HnswNode}
    (h : dictGet d k = some n) : dictLookup d k = some (some n) := by
  rw [dictGet] at h
  cases hc : dictLookup d k with
  | none => rw [hc] at h; cases h
  | some w =>
    rw [hc] at h
    cases w with
    | none => simp at h
    | some m =>
      simp at h
      rw [h]

theorem lockStep_lookup_some {o : vsetObject} {k : Ident} {n : HnswNode}
    (hl : lockStep o) (h : dictGet o.dict k = some n) :
    dictLookup o.dict k = some (some n) ∧ n ∈ o.hnsw.nodes := by
  have hlk := dictGet_some_lookup h
  refine ⟨hlk, ?_⟩
  have hmem : some n ∈ o.dict.map Prod.snd :=
    List.mem_map_of_mem Prod.snd (dictLookup_mem hlk)
  have := hl.2.mem_iff.mp hmem
  obtain ⟨m, hm, hmn⟩ := List.mem_map.mp this
  cases hmn
  exact hm

theorem lockStep_get_none {o : vsetObject} {k : Ident}
    (hl : lockStep o) (h : dictGet o.dict k = none) :
    dictLookup o.dict k = none := by
  cases hc : dictLookup o.dict k with
  | none => exact rfl
  | some w =>
    cases w with
    | some n =>
      rw [dictGet, hc] at h
      cases h
    | none =>
      have hmem : (none : Option HnswNode) ∈ o.dict.map Prod.snd :=
        List.mem_map_of_mem Prod.snd (dictLookup_mem hc)
      have := hl.2.mem_iff.mp hmem
      obtain ⟨m, _, hmn⟩ := List.mem_map.mp this
      cases hmn

/- ===================== operation equation lemmas ===================== -/

theorem vectorSetInsert_update_eq (vec : List ℤ) (p : ℕ) {o : vsetObject}
    {val : Ident} {node : HnswNode} (hget : dictGet o.dict val = some node) :
    vectorSetInsert o vec p val true true =
      ({ o with
          hnsw := { o.hnsw with
            nodes := (hnsw_delete_node o.hnsw node.nid).nodes ++
              [⟨o.hnsw.nextId, node.payload, vec⟩],
            nextId := o.hnsw.nextId + 1 },
          dict := dictReplace o.dict val
            (some ⟨o.hnsw.nextId, node.payload, vec⟩) }, 0) := by
  simp [vectorSetInsert, hget, hnsw_insert, hnsw_delete_node]

theorem vectorSetInsert_fresh_eq (vec : List ℤ) (p : ℕ) {o : vsetObject}
    {val : Ident} (hget : dictGet o.dict val = none) :
    vectorSetInsert o vec p val true true =
      ({ o with
          hnsw := { o.hnsw with
            nodes := o.hnsw.nodes ++ [⟨o.hnsw.nextId, p, vec⟩],
            nextId := o.hnsw.nextId + 1 },
          dict := dictSet o.dict val (some ⟨o.hnsw.nextId, p, vec⟩) }, 1) := by
  simp [vectorSetInsert, hget, hnsw_insert]

theorem casCommit_eq {o : vsetObject} {val : Ident} {p : ℕ} {vec : List ℤ}
    {c i : Bool} (hok : (c || i) = true) :
    VADD_CASReply_commit o val p vec c i =
      { o with
        hnsw := { o.hnsw with
          nodes := o.hnsw.nodes ++ [⟨o.hnsw.nextId, p, vec⟩],
          nextId := o.hnsw.nextId + 1 },
        dict := dictSet o.dict val (some ⟨o.hnsw.nextId, p, vec⟩) } := by
  cases c with
  | true => simp [VADD_CASReply_commit, hnsw_insert]
  | false =>
    simp only [Bool.false_or] at hok
    subst hok
    simp [VADD_CASReply_commit, hnsw_insert]

/- ===================== invariant preservation ===================== -/

theorem lockStep_fresh_append (p : ℕ) (vec : List ℤ) {o : vsetObject} {val : Ident}
    (hl : lockStep o) (hg : goodIds o.hnsw) (hget : dictGet o.dict val = none) :
    lockStep { o with
      hnsw := { o.hnsw with
        nodes := o.hnsw.nodes ++ [⟨o.hnsw.nextId, p, vec⟩],
        nextId := o.hnsw.nextId + 1 },
      dict := dictSet o.dict val (some ⟨o.hnsw.nextId, p, vec⟩) } ∧
    goodIds { o.hnsw with
      nodes := o.hnsw.nodes ++ [⟨o.hnsw.nextId, p, vec⟩],
      nextId := o.hnsw.nextId + 1 } := by
  have hlk := lockStep_get_none hl hget
  constructor
  · constructor
    · show ((dictSet o.dict val _).map Prod.fst).Nodup
      rw [dictSet_of_lookup_none hlk]
      simp only [List.map_append, List.map_cons, List.map_nil]
      rw [List.nodup_append]
      refine ⟨hl.1, List.nodup_singleton _, ?_⟩
      intro a ha hb
      simp only [List.mem_singleton] at hb
      subst hb
      exact dictLookup_none_not_mem hlk ha
    · show List.Perm ((dictSet o.dict val _).map Prod.snd) _
      rw [dictSet_of_lookup_none hlk]
      simp only [List.map_append, List.map_cons, List.map_nil]
      exact List.Perm.append hl.2 (List.Perm.refl _)
  · exact goodIds_insert hg

theorem lockStep_update (vec : List ℤ) {o : vsetObject} {val : Ident} {node : HnswNode}
    (hl : lockStep o) (hg : goodIds o.hnsw) (hget : dictGet o.dict val = some node) :
    lockStep { o with
      hnsw := { o.hnsw with
        nodes := (hnsw_delete_node o.hnsw node.nid).nodes ++
          [⟨o.hnsw.nextId, node.payload, vec⟩],
        nextId := o.hnsw.nextId + 1 },
      dict := dictReplace o.dict val (some ⟨o.hnsw.nextId, node.payload, vec⟩) } ∧
    goodIds { o.hnsw with
        nodes := (hnsw_delete_node o.hnsw node.nid).nodes ++
          [⟨o.hnsw.nextId, node.payload, vec⟩],
        nextId := o.hnsw.nextId + 1 } := by
  obtain ⟨hlk, hmem⟩ := lockStep_lookup_some hl hget
  have hsome : (dictLookup o.dict val).isSome := by rw [hlk]; rfl
  have hX : List.Perm (o.dict.map Prod.snd)
      (some node :: (dictDel o.dict val).map Prod.snd) :=
    map_snd_perm_of_lookup hl.1 hlk
  have hY : List.Perm (o.hnsw.nodes.map some)
      (some node :: (hnsw_delete_node o.hnsw node.nid).nodes.map some) :=
    nodes_perm_delete hg.1 hmem
  have hXY : List.Perm ((dictDel o.dict val).map Prod.snd)
      ((hnsw_delete_node o.hnsw node.nid).nodes.map some) :=
    List.Perm.cons_inv (hX.symm.trans (hl.2.trans hY))
  constructor
  · constructor
    · show ((dictReplace o.dict val _).map Prod.fst).Nodup
      rw [dictReplace_map_fst hsome]
      exact hl.1
    · show List.Perm ((dictReplace o.dict val _).map Prod.snd) _
      have h1 := dictReplace_map_snd_perm
        (v := some ⟨o.hnsw.nextId, node.payload, vec⟩) hl.1 hsome
      have h2 : List.Perm
          (((hnsw_delete_node o.hnsw node.nid).nodes ++
            [(⟨o.hnsw.nextId, node.payload, vec⟩ : HnswNode)]).map some)
          (some ⟨o.hnsw.nextId, node.payload, vec⟩ ::
            (hnsw_delete_node o.hnsw node.nid).nodes.map some) := by
        simp only [List.map_append, List.map_cons, List.map_nil]
        exact List.perm_append_singleton _ _
      exact (h1.trans (List.Perm.cons _ hXY)).trans h2.symm
  · exact goodIds_insert (goodIds_delete hg)

theorem lockStep_vrem {o : vsetObject} {val : Ident} {node : HnswNode}
    (hl : lockStep o) (hg : goodIds o.hnsw) (hget : dictGet o.dict val = some node) :
    lockStep { o with
      dict := dictDel o.dict val,
      hnsw := hnsw_delete_node o.hnsw node.nid } ∧
    goodIds (hnsw_delete_node o.hnsw node.nid) := by
  obtain ⟨hlk, hmem⟩ := lockStep_lookup_some hl hget
  refine ⟨⟨?_, ?_⟩, goodIds_delete hg⟩
  · show ((dictDel o.dict val).map Prod.fst).Nodup
    exact ((List.filter_sublist _).map _).nodup hl.1
  · show List.Perm ((dictDel o.dict val).map Prod.snd) _
    have hX := map_snd_perm_of_lookup hl.1 hlk
    have hY := nodes_perm_delete hg.1 hmem
    exact List.Perm.cons_inv (hX.symm.trans (hl.2.trans hY))

theorem vsetApplyOp_preserves (o : vsetObject) (op : VsetOp)
    (hok : op.allOk = true) (h : lockStep o ∧ goodIds o.hnsw) :
    lockStep (vsetApplyOp o op) ∧ goodIds (vsetApplyOp o op).hnsw := by
  obtain ⟨hl, hg⟩ := h
  cases op with
  | vaddSync val p vec ok =>
    have hok2 : ok = true := hok
    subst hok2
    cases hget : dictGet o.dict val with
    | some node =>
      have heq : vsetApplyOp o (VsetOp.vaddSync val p vec true) =
          { o with
            hnsw := { o.hnsw with
              nodes := (hnsw_delete_node o.hnsw node.nid).nodes ++
                [⟨o.hnsw.nextId, node.payload, vec⟩],
              nextId := o.hnsw.nextId + 1 },
            dict := dictReplace o.dict val
              (some ⟨o.hnsw.nextId, node.payload, vec⟩) } := by
        show (vectorSetInsert o vec p val true true).1 = _
        rw [vectorSetInsert_update_eq vec p hget]
      rw [heq]
      exact lockStep_update vec hl hg hget
    | none =>
      have heq : vsetApplyOp o (VsetOp.vaddSync val p vec true) =
          { o with
            hnsw := { o.hnsw with
              nodes := o.hnsw.nodes ++ [⟨o.hnsw.nextId, p, vec⟩],
              nextId := o.hnsw.nextId + 1 },
            dict := dictSet o.dict val (some ⟨o.hnsw.nextId, p, vec⟩) } := by
        show (vectorSetInsert o vec p val true true).1 = _
        rw [vectorSetInsert_fresh_eq vec p hget]
      rw [heq]
      exact lockStep_fresh_append p vec hl hg hget
  | vaddCas val p vec c i =>
    have hci : (c || i) = true := hok
    cases hget : dictGet o.dict val with
    | some node =>
      have : vsetApplyOp o (VsetOp.vaddCas val p vec c i) = o := by
        simp [vsetApplyOp, hget]
      rw [this]
      exact ⟨hl, hg⟩
    | none =>
      have : vsetApplyOp o (VsetOp.vaddCas val p vec c i) =
          VADD_CASReply_commit o val p vec c i := by
        simp [vsetApplyOp, hget]
      rw [this, casCommit_eq hci]
      exact lockStep_fresh_append p vec hl hg hget
  | vrem val =>
    cases hget : dictGet o.dict val with
    | none =>
      have : vsetApplyOp o (VsetOp.vrem val) = o := by
        simp [vsetApplyOp, vremVset, hget]
      rw [this]
      exact ⟨hl, hg⟩
    | some node =>
      have : vsetApplyOp o (VsetOp.vrem val) =
          { o with dict := dictDel o.dict val,
                   hnsw := hnsw_delete_node o.hnsw node.nid } := by
        simp [vsetApplyOp, vremVset, hget]
      rw [this]
      exact lockStep_vrem hl hg hget

theorem lockStep_foldl (ops : List VsetOp) (o : vsetObject)
    (h : lockStep o ∧ goodIds o.hnsw) (hops : ∀ op ∈ ops, op.allOk = true) :
    lockStep (ops.foldl vsetApplyOp o) ∧
    goodIds (ops.foldl vsetApplyOp o).hnsw := by
  induction ops generalizing o with
  | nil => exact h
  | cons op t ih =>
    simp only [List.foldl_cons]
    exact ih _ (vsetApplyOp_preserves o op (hops op (List.mem_cons_self _ _)) h)
      (fun op2 hm => hops op2 (List.mem_cons_of_mem _ hm))



/- ===================== VSIM emit lemmas ===================== -/

theorem vsimEmit_eq_takeWhile_take (found : List (Ident × ℚ)) (count : ℕ) (eps : ℚ) :
    vsimEmit found count eps =
      (found.take count).takeWhile (fun p => decide (p.2 ≤ eps)) := by
  induction found generalizing count with
  | nil => cases count <;> simp [vsimEmit]
  | cons a rest ih =>
    obtain ⟨v, d⟩ := a
    cases count with
    | zero => simp [vsimEmit]
    | succ n =>
      by_cases hd : eps < d
      · have hdec : decide (((v, d) : Ident × ℚ).2 ≤ eps) = false := by
          simp [not_le.mpr hd]
        simp [vsimEmit, if_pos hd, List.takeWhile_cons, hdec]
      · have hdec : decide (((v, d) : Ident × ℚ).2 ≤ eps) = true := by
          simp [not_lt.mp hd]
        simp [vsimEmit, if_neg hd, List.takeWhile_cons, hdec, ih]

theorem vsimEmit_sublist (found : List (Ident × ℚ)) (count : ℕ) (eps : ℚ) :
    (vsimEmit found count eps).Sublist found := by
  rw [vsimEmit_eq_takeWhile_take]
  exact (List.takeWhile_sublist _).trans (List.take_sublist _ _)

/- ===================== projection lemmas ===================== -/

theorem rowDot_oob {input matrix : List ℤ} {rowBase : ℕ}
    (h : matrix.length ≤ rowBase) (fuel : ℕ) (hf : 0 < fuel) :
    rowDot input matrix rowBase 0 fuel = none := by
  cases fuel with
  | zero => cases hf
  | succ n =>
    have hget : matrix.get? (rowBase + 0) = none := by
      rw [List.get?_eq_none]
      simpa using h
    simp only [rowDot, hget, Option.bind_eq_bind, Option.none_bind]

theorem applyProjectionRows_isSome {input matrix : List ℤ} {input_dim : ℕ} :
    ∀ (fuel i : ℕ) (out : List ℤ),
      applyProjectionRows input matrix input_dim i fuel = some out →
      ∀ k, i ≤ k → k < i + fuel →
        (rowDot input matrix (k * input_dim) 0 input_dim).isSome := by
  intro fuel
  induction fuel with
  | zero =>
    intro i out _ k hik hk
    omega
  | succ n ih =>
    intro i out hsome k hik hk
    simp only [applyProjectionRows, Option.bind_eq_bind] at hsome
    cases hrow : rowDot input matrix (i * input_dim) 0 input_dim with
    | none => rw [hrow] at hsome; cases hsome
    | some x =>
      rw [hrow] at hsome
      simp only [Option.some_bind] at hsome
      cases hrest : applyProjectionRows input matrix input_dim (i + 1) n with
      | none => rw [hrest] at hsome; cases hsome
      | some rest =>
        by_cases hki : k = i
        · subst hki
          rw [hrow]
          rfl
        · exact ih (i + 1) rest hrest k (by omega) (by omega)

theorem applyProjection_oob (input matrix : List ℤ) (input_dim output_dim dimArg : ℕ)
    (hm : matrix.length = input_dim * output_dim) (hlt : output_dim < dimArg)
    (hpos : 0 < input_dim) :
    applyProjection input matrix input_dim dimArg = none := by
  cases hres : applyProjection input matrix input_dim dimArg with
  | none => rfl
  | some out =>
    exfalso
    rw [applyProjection] at hres
    have hs := applyProjectionRows_isSome dimArg 0 out hres output_dim
      (Nat.zero_le _) (by omega)
    have hnone : rowDot input matrix (output_dim * input_dim) 0 input_dim = none :=
      rowDot_oob (by rw [hm, Nat.mul_comm]) input_dim hpos
    rw [hnone] at hs
    cases hs

/- ===================== RDB codec lemmas ===================== -/

theorem loadParams_roundtrip (ps : List ℕ) (rest : List RdbItem) :
    loadParams ps.length (ps.map RdbItem.unsigned ++ rest) = some (ps, rest) := by
  induction ps with
  | nil => simp [loadParams]
  | cons p t ih =>
    rw [List.length_cons, List.map_cons, List.cons_append]
    simp only [loadParams, ih]

theorem loadNodes_roundtrip (qbytes : ℕ) (ns : List SerNode) (rest : List RdbItem)
    (h : ∀ n ∈ ns, n.vecBytes.length = qbytes) :
    loadNodes qbytes ns.length (ns.flatMap nodeSave ++ rest) = some (ns, rest) := by
  induction ns with
  | nil => simp [loadNodes]
  | cons n t ih =>
    have hlen : n.vecBytes.length = qbytes := h n (List.mem_cons_self _ _)
    have hrest : ∀ m ∈ t, m.vecBytes.length = qbytes :=
      fun m hm => h m (List.mem_cons_of_mem _ hm)
    have hexp : (n :: t).flatMap nodeSave ++ rest =
        RdbItem.str n.value :: RdbItem.buf n.vecBytes ::
          RdbItem.unsigned n.params.length ::
          (n.params.map RdbItem.unsigned ++ (t.flatMap nodeSave ++ rest)) := by
      simp [nodeSave]
    rw [List.length_cons, hexp]
    simp only [loadNodes, hlen, if_true, loadParams_roundtrip, ih hrest,
      eq_self_iff_true]

/- ===================== claims ===================== -/

/-- C1: VADD_CASReply is claimed to turn every failed re-validation into a
successful no-op (reply 1, no mutation) for every interleaving. The code
does so for a missing key, a key of another type, and a duplicate
identifier — but when the key holds a VectorSet whose identity tag differs
from the captured one it sets vset to NULL and then dereferences
vset->dict in the duplicate-identifier check, a NULL-pointer dereference
(crash), so the claimed no-op behavior fails for that interleaving. -/
theorem C1_cas_reply_revalidation :
    VADD_CASReply (.holds { sampleVset with id := 7 }) 3 "b" 9 [3, 4] true true =
      .crash ∧
    VADD_CASReply .empty 3 "b" 9 [3, 4] true true = .done 1 .empty false ∧
    VADD_CASReply .otherType 3 "b" 9 [3, 4] true true = .done 1 .otherType false ∧
    VADD_CASReply (.holds sampleVset) 3 "a" 9 [3, 4] true true =
      .done 1 (.holds sampleVset) false := by
  decide

/-- C2 counterexample: after a successful insert of "a", an update-style
re-insert of "a" whose engine insert fails deletes the graph node but
still replaces the dict entry (with NULL), leaving an identifier in the
map with no live node: the claimed lock-step invariant fails for an
operation that fails partway. -/
theorem C2_counterexample :
    ¬ lockStep (([VsetOp.vaddSync "a" 7 [1] true,
        VsetOp.vaddSync "a" 7 [2] false] : List VsetOp).foldl vsetApplyOp
        (createVectorSetObject 1 QuantType.q8 0)) := by
  decide

/-- C2 (amended): for every sequence of synchronous inserts/updates,
committed two-phase inserts, and removals in which every engine insert
that actually runs succeeds, the identifier map and the graph stay in
lock-step: the keys are unique and the stored node pointers are exactly
the live graph nodes, one-to-one. -/
theorem C2_lockstep (ops : List VsetOp) (dim : ℕ) (q : QuantType) (newId : ℕ)
    (hops : ∀ op ∈ ops, op.allOk = true) :
    lockStep (ops.foldl vsetApplyOp (createVectorSetObject dim q newId)) := by
  have hinit : lockStep (createVectorSetObject dim q newId) ∧
      goodIds (createVectorSetObject dim q newId).hnsw := by
    refine ⟨⟨List.nodup_nil, List.Perm.refl _⟩, List.nodup_nil, ?_⟩
    intro n hn
    cases hn
  exact (lockStep_foldl ops _ hinit hops).1

/-- Witness for C2_lockstep at a concrete operation sequence. -/
theorem C2_lockstep_witness :
    (∀ op ∈ ([VsetOp.vaddSync "a" 7 [1] true, VsetOp.vrem "a"] : List VsetOp),
      op.allOk = true) ∧
    lockStep (([VsetOp.vaddSync "a" 7 [1] true, VsetOp.vrem "a"] : List VsetOp).foldl
      vsetApplyOp (createVectorSetObject 1 QuantType.q8 0)) :=
  ⟨by decide, C2_lockstep [VsetOp.vaddSync "a" 7 [1] true, VsetOp.vrem "a"] 1
    QuantType.q8 0 (by decide)⟩

/-- C3: applyProjection itself computes the spec's dense matrix-vector
product (first conjunct: a 3-to-2 matrix maps [1,2,3] to its two row inner
products, exactly vector_dim components), and the creation-time call passes
(dim, reduce_dim) correctly (fourth conjunct); but the calls made by VADD
on an existing set and by VSIM pass the parsed input dimension as
output_dim, so on a 3-to-2 set with a 3-component input they compute 3
components and read past the end of the 2-by-3 matrix — undefined behavior
(`none`) instead of the claimed 2-component projection (second and third
conjuncts). Queries already of the reduced dimension are left unprojected
as claimed (last conjunct). -/
theorem C3_projection_call_sites :
    applyProjection [1, 2, 3] [1, 0, 0, 0, 1, 0] 3 2 = some [1, 2] ∧
    vaddExistingProjection [1, 0, 0, 0, 1, 0] 3 [1, 2, 3] 3 = none ∧
    vsimProjection [1, 0, 0, 0, 1, 0] 3 [1, 2, 3] 3 = none ∧
    vaddCreateProjection [1, 0, 0, 0, 1, 0] [1, 2, 3] 3 2 = some [1, 2] ∧
    (∀ (m vec : List ℤ) (pis vd : ℕ),
      vsimPrepareVector (some m) pis vd vec vd = (some vec, vd)) := by
  refine ⟨by decide, by decide, by decide, by decide, ?_⟩
  intro m vec pis vd
  simp [vsimPrepareVector]

/-- C4 counterexample: VDIM applied to a non-existing key replies the hard
error "ERR key does not exist", not an empty/null/zero result. -/
theorem C4_counterexample :
    (VDIM .empty).isHardError = true ∧
    VDIM .empty = .err "ERR key does not exist" := by
  decide

/-- C4 (amended): on a non-existing key, VSIM replies an empty array,
VCARD and VREM reply 0, VEMB and VLINKS reply null, VINFO replies a null
array — all non-errors — while VDIM replies a hard error; on a key holding
a value of a different type, every one of the seven commands replies the
hard WRONGTYPE error. -/
theorem C4_missing_key_replies :
    (∀ found count eps ws, VSIM .empty found count eps ws = .emptyArray) ∧
    VCARD .empty = .int 0 ∧
    (∀ e, (VREM .empty e).1 = .int 0) ∧
    (∀ e, VEMB .empty e = .nil) ∧
    (∀ e layers ws, VLINKS .empty e layers ws = .nil) ∧
    VINFO .empty = .nilArray ∧
    VDIM .empty = .err "ERR key does not exist" ∧
    (VDIM .otherType).isHardError = true ∧
    (VCARD .otherType).isHardError = true ∧
    (∀ found count eps ws, (VSIM .otherType found count eps ws).isHardError = true) ∧
    (∀ e, ((VREM .otherType e).1).isHardError = true) ∧
    (∀ e, (VEMB .otherType e).isHardError = true) ∧
    (∀ e layers ws, (VLINKS .otherType e layers ws).isHardError = true) ∧
    (VINFO .otherType).isHardError = true :=
  ⟨fun _ _ _ _ => rfl, rfl, fun _ => rfl, fun _ => rfl, fun _ _ _ => rfl, rfl, rfl,
   rfl, rfl, fun _ _ _ _ => rfl, fun _ => rfl, fun _ => rfl, fun _ _ _ => rfl, rfl⟩

/-- C5: the VSIM reply contains at most count pairs, is ordered by
nondecreasing distance whenever the engine results are so ordered, never
contains a pair whose distance exceeds epsilon, and is exactly the
count-prefix of the engine results cut at the first distance exceeding
epsilon. -/
theorem C5_search_reply (found : List (Ident × ℚ)) (count : ℕ) (eps : ℚ)
    (hsorted : List.Pairwise (fun a b : Ident × ℚ => a.2 ≤ b.2) found) :
    (vsimEmit found count eps).length ≤ count ∧
    List.Pairwise (fun a b : Ident × ℚ => a.2 ≤ b.2) (vsimEmit found count eps) ∧
    (∀ p ∈ vsimEmit found count eps, p.2 ≤ eps) ∧
    vsimEmit found count eps =
      (found.take count).takeWhile (fun p => decide (p.2 ≤ eps)) := by
  refine ⟨?_, ?_, ?_, vsimEmit_eq_takeWhile_take found count eps⟩
  · rw [vsimEmit_eq_takeWhile_take]
    calc ((found.take count).takeWhile (fun p => decide (p.2 ≤ eps))).length
        ≤ (found.take count).length := (List.takeWhile_sublist _).length_le
      _ ≤ count := List.length_take_le _ _
  · exact List.Pairwise.sublist (vsimEmit_sublist found count eps) hsorted
  · intro p hp
    rw [vsimEmit_eq_takeWhile_take] at hp
    have := List.mem_takeWhile_imp hp
    simpa using this

/-- Witness for C5_search_reply at a concrete sorted result list. -/
theorem C5_search_reply_witness :
    List.Pairwise (fun a b : Ident × ℚ => a.2 ≤ b.2)
      ([("a", 0), ("b", 1), ("c", 3)] : List (Ident × ℚ)) ∧
    ((vsimEmit [("a", 0), ("b", 1), ("c", 3)] 2 2).length ≤ 2 ∧
     List.Pairwise (fun a b : Ident × ℚ => a.2 ≤ b.2)
       (vsimEmit [("a", 0), ("b", 1), ("c", 3)] 2 2) ∧
     (∀ p ∈ vsimEmit [("a", 0), ("b", 1), ("c", 3)] 2 2, p.2 ≤ 2) ∧
     vsimEmit [("a", 0), ("b", 1), ("c", 3)] 2 2 =
       (([("a", 0), ("b", 1), ("c", 3)] : List (Ident × ℚ)).take 2).takeWhile
         (fun p => decide (p.2 ≤ 2))) :=
  ⟨by decide, C5_search_reply [("a", 0), ("b", 1), ("c", 3)] 2 2 (by decide)⟩

/-- C6: serializing a vector set and deserializing the produced stream
yields the identical serialized content — same cardinality, vector
dimension, quantization mode, projection presence and contents, and the
same per-identifier stored vector bytes — provided each node's vector blob
has the expected quantized size and the projection blob has its declared
size (both hold for any set the engine produced). -/
theorem C6_rdb_roundtrip (v : VsetSerialized) (qbytes : ℕ)
    (hvec : ∀ n ∈ v.nodes, n.vecBytes.length = qbytes)
    (hproj : ∀ inputDim mbytes, v.projection = some (inputDim, mbytes) →
      mbytes.length = 4 * inputDim * v.vectorDim) :
    VectorSetRdbLoad qbytes 0 (VectorSetRdbSave v) = some v := by
  obtain ⟨dim, quant, proj, ns⟩ := v
  simp only at hvec hproj
  cases proj with
  | none =>
    have hsave : VectorSetRdbSave ⟨dim, quant, none, ns⟩ =
        RdbItem.unsigned dim :: RdbItem.unsigned ns.length :: RdbItem.unsigned quant ::
        RdbItem.unsigned 0 :: (ns.flatMap nodeSave ++ []) := by
      simp [VectorSetRdbSave]
    rw [hsave]
    simp only [VectorSetRdbLoad, if_true, loadNodes_roundtrip qbytes ns [] hvec]
    simp
  | some pr =>
    obtain ⟨idim, mb⟩ := pr
    have hmb : mb.length = 4 * idim * dim := hproj idim mb rfl
    have hsave : VectorSetRdbSave ⟨dim, quant, some (idim, mb), ns⟩ =
        RdbItem.unsigned dim :: RdbItem.unsigned ns.length :: RdbItem.unsigned quant ::
        RdbItem.unsigned 1 :: RdbItem.unsigned idim :: RdbItem.buf mb ::
        (ns.flatMap nodeSave ++ []) := by
      simp [VectorSetRdbSave]
    rw [hsave]
    simp only [VectorSetRdbLoad, loadNodes_roundtrip qbytes ns [] hvec]
    have hle : 4 * idim * dim ≤ mb.length := le_of_eq hmb.symm
    have htake : mb.take (4 * idim * dim) = mb := by
      rw [← hmb]
      exact List.take_length mb
    simp [hle, htake]

/-- Witness for C6_rdb_roundtrip at a concrete one-node set with a 3-to-2
projection. -/
theorem C6_rdb_roundtrip_witness :
    (∀ n ∈ ([⟨"a", [7, 8], [5, 6]⟩] : List SerNode), n.vecBytes.length = 2) ∧
    (∀ inputDim mbytes,
      (some (3, List.replicate 24 0) : Option (ℕ × List ℕ)) = some (inputDim, mbytes) →
      mbytes.length = 4 * inputDim * 2) ∧
    VectorSetRdbLoad 2 0
      (VectorSetRdbSave ⟨2, 1, some (3, List.replicate 24 0), [⟨"a", [7, 8], [5, 6]⟩]⟩) =
      some ⟨2, 1, some (3, List.replicate 24 0), [⟨"a", [7, 8], [5, 6]⟩]⟩ := by
  have hb : ∀ inputDim mbytes,
      (some (3, List.replicate 24 0) : Option (ℕ × List ℕ)) = some (inputDim, mbytes) →
      mbytes.length = 4 * inputDim * 2 := by
    intro inputDim mbytes h
    simp only [Option.some.injEq, Prod.mk.injEq] at h
    obtain ⟨h1, h2⟩ := h
    subst h1
    subst h2
    decide
  exact ⟨by decide, hb,
    C6_rdb_roundtrip ⟨2, 1, some (3, List.replicate 24 0), [⟨"a", [7, 8], [5, 6]⟩]⟩ 2
      (by decide) hb⟩

/-- C7: VADD never takes the threaded (CAS) path when the identifier is
already present in the set, nor when the command arrives replicated, from
a Lua script, or inside MULTI/EXEC — in all these cases the insert runs
synchronously even if the CAS option was given. -/
theorem C7_no_cas_for_update_or_scripted :
    (∀ c r l m k, vaddPath c r l m k true = .sync) ∧
    (∀ c l m k i, vaddPath c true l m k i = .sync) ∧
    (∀ c r m k i, vaddPath c r true m k i = .sync) ∧
    (∀ c r l k i, vaddPath c r l true k i = .sync) := by
  refine ⟨?_, ?_, ?_, ?_⟩ <;> decide

/-- C10: a VADD that creates the key always inserts synchronously: the CAS
option is silently dropped, whatever the other options and flags are. -/
theorem C10_create_is_sync :
    ∀ c r l m i, vaddPath c r l m true i = .sync := by
  decide

/-- C8: inserting an already-present identifier with update enabled and a
new vector replies 0, leaves the node count unchanged, installs a new node
that carries the old node's value object and the new vector, replaces the
map entry with it, and makes VEMB return exactly the new vector. -/
theorem C8_update_insert (o : vsetObject) (val : Ident) (node : HnswNode)
    (vec : List ℤ) (p : ℕ)
    (hget : dictGet o.dict val = some node)
    (hmem : node ∈ o.hnsw.nodes)
    (hnd : (o.hnsw.nodes.map HnswNode.nid).Nodup) :
    (vectorSetInsert o vec p val true true).2 = 0 ∧
    (vectorSetInsert o vec p val true true).1.hnsw.nodes.length =
      o.hnsw.nodes.length ∧
    dictGet (vectorSetInsert o vec p val true true).1.dict val =
      some ⟨o.hnsw.nextId, node.payload, vec⟩ ∧
    vembVec (vectorSetInsert o vec p val true true).1 val = some vec ∧
    (⟨o.hnsw.nextId, node.payload, vec⟩ : HnswNode) ∈
      (vectorSetInsert o vec p val true true).1.hnsw.nodes := by
  rw [vectorSetInsert_update_eq vec p hget]
  have hperm := nodes_perm_delete hnd hmem
  have hlen := hperm.length_eq
  simp only [List.length_map, List.length_cons] at hlen
  refine ⟨rfl, ?_, ?_, ?_, ?_⟩
  · show ((hnsw_delete_node o.hnsw node.nid).nodes ++ [_]).length = _
    simp only [List.length_append, List.length_cons, List.length_nil,
      hnsw_delete_node]
    omega
  · show dictGet (dictReplace o.dict val _) val = _
    rw [dictGet, dictLookup_dictReplace]
  · show vembVec _ val = some vec
    rw [vembVec]
    show (dictGet (dictReplace o.dict val _) val).map _ = _
    rw [dictGet, dictLookup_dictReplace]
    rfl
  · exact List.mem_append_right _ (List.mem_singleton.mpr rfl)

/-- Witness for C8_update_insert on the one-element sample set. -/
theorem C8_update_insert_witness :
    dictGet sampleVset.dict "a" = some sampleNode ∧
    sampleNode ∈ sampleVset.hnsw.nodes ∧
    (sampleVset.hnsw.nodes.map HnswNode.nid).Nodup ∧
    ((vectorSetInsert sampleVset [3, 4] 9 "a" true true).2 = 0 ∧
     (vectorSetInsert sampleVset [3, 4] 9 "a" true true).1.hnsw.nodes.length =
       sampleVset.hnsw.nodes.length ∧
     dictGet (vectorSetInsert sampleVset [3, 4] 9 "a" true true).1.dict "a" =
       some ⟨sampleVset.hnsw.nextId, sampleNode.payload, [3, 4]⟩ ∧
     vembVec (vectorSetInsert sampleVset [3, 4] 9 "a" true true).1 "a" =
       some [3, 4] ∧
     (⟨sampleVset.hnsw.nextId, sampleNode.payload, [3, 4]⟩ : HnswNode) ∈
       (vectorSetInsert sampleVset [3, 4] 9 "a" true true).1.hnsw.nodes) :=
  ⟨by decide, by decide, by decide,
   C8_update_insert sampleVset "a" sampleNode [3, 4] 9 (by decide) (by decide)
     (by decide)⟩

/-- C9: with WITHSCORES, both the VSIM reply and the VLINKS reply attach
the similarity 1 - distance/2 to every pair, and this maps any distance in
[0, 2] to a similarity in [0, 1]. -/
theorem C9_similarity_scores :
    (∀ (found : List (Ident × ℚ)) (count : ℕ) (eps : ℚ),
      vsimReply found count eps true =
        (vsimEmit found count eps).map (fun p => (p.1, some (1 - p.2 / 2)))) ∧
    (∀ neighborDistances : List (Ident × ℚ),
      vlinksWithScores neighborDistances =
        neighborDistances.map (fun p => (p.1, 1 - p.2 / 2))) ∧
    (∀ d : ℚ, 0 ≤ d → d ≤ 2 → 0 ≤ similarityScore d ∧ similarityScore d ≤ 1) := by
  refine ⟨?_, ?_, ?_⟩
  · intro found count eps
    simp [vsimReply, similarityScore]
  · intro l
    simp [vlinksWithScores, similarityScore]
  · intro d h0 h2
    constructor
    · rw [similarityScore]
      linarith
    · rw [similarityScore]
      linarith

/-- Witness for C9_similarity_scores at distance 1. -/
theorem C9_similarity_scores_witness :
    (0 : ℚ) ≤ 1 ∧ (1 : ℚ) ≤ 2 ∧
    0 ≤ similarityScore 1 ∧ similarityScore 1 ≤ 1 :=
  ⟨by norm_num, by norm_num,
   (C9_similarity_scores.2.2 1 (by norm_num) (by norm_num)).1,
   (C9_similarity_scores.2.2 1 (by norm_num) (by norm_num)).2⟩

end VectorSets
